import Mathlib

/-!
Verification of the chart-spec synthesis engine in `altair_pandas/_core.py`.

The Python source is shallowly embedded: pure helpers become Lean
functions, pandas frames become explicit list-based structures, Python
exceptions become `Except` errors, and the few in-place mutations of
working frames are modelled by an explicit heap of frames so that
non-mutation of the caller's input is a real statement.
-/

namespace AltairPandas

/-- Ceiling division `⌈a / b⌉` of integers for a positive divisor `b`,
modelling `int(np.ceil(a / b))` in `_get_layout`.  Written as
`-(-a / b)` where `/` is Euclidean division (floor division for a
positive divisor). -/
def ceilDiv (a b : Int) : Int := -(-a / b)

/-- The body of `_get_layout(panels, layout)` once `layout` is known to
be a two-element tuple `(a, b)`:

* two negative entries raise `ValueError`;
* a negative first entry is replaced by `ceil(panels / b)` (a zero
  divisor raises `ZeroDivisionError`, as Python division would);
* then a negative second entry is replaced by `ceil(panels / r)` using
  the (possibly already inferred) first entry `r`;
* finally `panels > rows * cols` raises `ValueError`. -/
def layoutCore (panels a b : Int) : Except String (Int × Int) :=
  if a < 0 ∧ b < 0 then
    .error "At least one dimension of layout must be positive"
  else if a < 0 then
    -- here b ≥ 0, so the `layout[1] < 0` inference cannot fire afterwards
    if b = 0 then .error "ZeroDivisionError"
    else if panels > ceilDiv panels b * b then
      .error "layout must be larger than panels"
    else .ok (ceilDiv panels b, b)
  else if b < 0 then
    if a = 0 then .error "ZeroDivisionError"
    else if panels > a * ceilDiv panels a then
      .error "layout must be larger than panels"
    else .ok (a, ceilDiv panels a)
  else if panels > a * b then
    .error "layout must be larger than panels"
  else .ok (a, b)

/-- Embedding of `_get_layout(panels, layout)` from `_core.py`:
`layout=None` defaults to `(-1, 2)`, a layout whose length is not 2
raises `ValueError`, and a two-element layout is resolved by
`layoutCore`. -/
def _get_layout (panels : Int) (layout : Option (List Int)) :
    Except String (Int × Int) :=
  match layout.getD [-1, 2] with
  | [a, b] => layoutCore panels a b
  | _ => .error "layout should have two elements"

/-- For a positive divisor, `ceilDiv` over-approximates the quotient:
`a ≤ ceilDiv a b * b`. -/
theorem le_ceilDiv_mul (a b : Int) (hb : 0 < b) : a ≤ ceilDiv a b * b := by
  have h := Int.ediv_add_emod (-a) b
  have h2 := Int.emod_nonneg (-a) (by omega : b ≠ 0)
  unfold ceilDiv
  nlinarith [h, h2]

/-- For a positive divisor, `ceilDiv` is the least such integer:
`(ceilDiv a b - 1) * b < a`.  Together with `le_ceilDiv_mul` this pins
`ceilDiv a b` as `⌈a / b⌉`. -/
theorem ceilDiv_mul_lt (a b : Int) (hb : 0 < b) : (ceilDiv a b - 1) * b < a := by
  have h := Int.ediv_add_emod (-a) b
  have h2 := Int.emod_lt_of_pos (-a) hb
  unfold ceilDiv
  nlinarith [h, h2]

/-- `ceilDiv` of a positive dividend by a positive divisor is positive. -/
theorem ceilDiv_pos (a b : Int) (ha : 1 ≤ a) (hb : 0 < b) : 0 < ceilDiv a b := by
  have h := le_ceilDiv_mul a b hb
  nlinarith [h]

/-! ### Kernel density estimation: bandwidth and steps resolution -/

/-- The forms a caller may pass as `bw_method` to `_PandasPlotter._kde`.
A callable is abstracted by the value it returns when applied to the
working data (the code calls it exactly once). -/
inductive BwMethod where
  | none
  | scott
  | silverman
  | callable (result : ℚ)
  | numeric (x : ℚ)
deriving DecidableEq

/-- Symbolic value of the resolved bandwidth.  The silverman branch of
the code computes a float power `base ** exp`; the embedding keeps the
base and exponent as exact rationals instead of rounding. -/
inductive BandwidthVal where
  | num (x : ℚ)
  | pow (base : ℚ) (exp : ℚ)
deriving DecidableEq

/-- Embedding of the `bw_method` resolution in `_PandasPlotter._kde`
(lines 91–109 of `_core.py`).  Returns the bandwidth together with a
flag recording whether the multi-column-callable `UserWarning` was
emitted.  `nrows`/`ncols` are `data.shape`. -/
def kdeBandwidth (bw : BwMethod) (nrows ncols : ℕ) : BandwidthVal × Bool :=
  match bw with
  | .scott => (.num 0, false)
  | .none => (.num 0, false)
  | .silverman =>
      let n : ℚ := nrows
      let d : ℚ := 1
      (.pow (n * (d + 2) / 4) (-1 / (d + 4)), false)
  | .callable r => (.num r, decide (1 < ncols))
  | .numeric x => (.num x, false)

/-- The forms a caller may pass as `ind` to `_PandasPlotter._kde`. -/
inductive IndArg where
  | none
  | int (n : ℤ)
  | ndarray (xs : List ℚ)
  | pylist (xs : List ℚ)
deriving DecidableEq

/-- What ends up in the `steps` argument of the density transform. -/
inductive StepsVal where
  | int (n : ℤ)
  | seq (xs : List ℚ)
deriving DecidableEq

/-- Embedding of the `ind` resolution in `_PandasPlotter._kde`
(lines 111–120 of `_core.py`): `None` gives 1000 steps; a NumPy array
warns and gives 1000 steps; anything else — an integer, but also e.g. a
plain Python list — is used as `steps` unchanged.  The boolean records
whether the `UserWarning` was emitted. -/
def kdeSteps : IndArg → StepsVal × Bool
  | .none => (.int 1000, false)
  | .ndarray _ => (.int 1000, true)
  | .int n => (.int n, false)
  | .pylist xs => (.seq xs, false)

/-! ### Scalars and their Python string forms

Index entries and column labels are modelled as Python ints or strings.
`pyStr` models `str(x)` (used by `_valid_column` and by `reset_index`
materialisation); `pyRepr` models `repr(x)` as used inside
`str(tuple)`. -/

/-- A scalar value as found in pandas labels and index entries. -/
inductive Scalar where
  | int (n : ℤ)
  | str (s : String)
deriving DecidableEq

/-- The character for a decimal digit `d < 10`. -/
def digitChar (d : ℕ) : Char := Char.ofNat (48 + d)

/-- Little-endian base-10 digits computed with structural fuel, so that
concrete values reduce in the kernel.  `natDigitsAux fuel n` equals
`Nat.digits 10 n` whenever `n ≤ fuel`. -/
def natDigitsAux : ℕ → ℕ → List ℕ
  | _, 0 => []
  | 0, _ + 1 => []
  | fuel + 1, n + 1 => ((n + 1) % 10) :: natDigitsAux fuel ((n + 1) / 10)

/-- Little-endian base-10 digits of `n`. -/
def natDigits (n : ℕ) : List ℕ := natDigitsAux n n

/-- Decimal rendering of a natural number (big-endian), modelling
Python `str(n)`. -/
def natStr (n : ℕ) : List Char :=
  if n = 0 then ['0'] else (natDigits n).reverse.map digitChar

/-- Decimal rendering of an integer, modelling Python `str(i)` (which
for ints equals `repr(i)`). -/
def intStr (n : ℤ) : List Char :=
  if n < 0 then '-' :: natStr n.natAbs else natStr n.natAbs

/-- Python `str(x)`, as applied by `_valid_column` to column labels:
the identity on strings, decimal rendering on ints. -/
def pyStr : Scalar → String
  | .int n => String.mk (intStr n)
  | .str s => s

/-- Whether a scalar is an int. -/
def Scalar.isInt : Scalar → Bool
  | .int _ => true
  | .str _ => false

/-- Python `repr` quote choice for a string: single quotes, unless the
string contains a single quote and no double quote. -/
def quoteChar (s : List Char) : Char :=
  if s.contains '\'' ∧ ¬ s.contains '"' then '"' else '\''

/-- Escaping of one character inside a Python string repr delimited by
`q`: backslashes and the delimiter are escaped.  (Control characters,
which Python also escapes, are not modelled.) -/
def escapeChar (q c : Char) : List Char :=
  if c = '\\' then ['\\', '\\']
  else if c = q then ['\\', q]
  else [c]

/-- Escape a whole string for a Python repr delimited by `q`. -/
def escapeStr (q : Char) : List Char → List Char
  | [] => []
  | c :: rest => escapeChar q c ++ escapeStr q rest

/-- Python `repr(x)` for a scalar: decimal rendering for ints, a quoted
and escaped literal for strings. -/
def pyRepr : Scalar → List Char
  | .int n => intStr n
  | .str s =>
      let cs := s.data
      let q := quoteChar cs
      q :: (escapeStr q cs ++ [q])

/-- `", ".join(...)` over already-rendered elements. -/
def sepJoin : List (List Char) → List Char
  | [] => []
  | [x] => x
  | x :: xs => x ++ [',', ' '] ++ sepJoin xs

/-- Python `str(t)` of an index tuple `t`, as computed by
`[str(i) for i in data.index]` on a MultiIndex: `"(r1, r2, ...)"`, with
a trailing comma for 1-tuples. -/
def tupleStrL (t : List Scalar) : List Char :=
  '(' :: (sepJoin (t.map pyRepr) ++ (if t.length = 1 then [',', ')'] else [')']))

/-- `tupleStrL` packaged as a `String`. -/
def tupleStr (t : List Scalar) : String := String.mk (tupleStrL t)

/-! ### A parser inverting the tuple string form

The flattening of MultiIndex tuples is proved injective by exhibiting a
parser that recovers the tuple from its string form. -/

/-- Parse the body of a quoted Python string literal with delimiter
`q`: consume until the unescaped closing delimiter, undoing the
backslash escapes. -/
def parseQuoted (q : Char) : List Char → Option (List Char × List Char)
  | [] => none
  | c :: rest =>
    if c = q then some ([], rest)
    else if c = '\\' then
      match rest with
      | [] => none
      | d :: rest2 => (parseQuoted q rest2).map (fun p => (d :: p.1, p.2))
    else (parseQuoted q rest).map (fun p => (c :: p.1, p.2))

/-- The numeric value of a digit character. -/
def digitVal (c : Char) : ℕ := c.toNat - 48

/-- Parse a nonempty run of leading digits as a natural number. -/
def parseNat (l : List Char) : Option (ℕ × List Char) :=
  if l.takeWhile Char.isDigit = [] then none
  else some ((l.takeWhile Char.isDigit).foldl (fun a c => 10 * a + digitVal c) 0,
    l.dropWhile Char.isDigit)

/-- Parse an optionally negated decimal integer. -/
def parseInt (l : List Char) : Option (ℤ × List Char) :=
  match l with
  | [] => none
  | c :: rest =>
    if c = '-' then (parseNat rest).map (fun p => (-(p.1 : ℤ), p.2))
    else (parseNat l).map (fun p => ((p.1 : ℤ), p.2))

/-- Parse one scalar repr: a quoted string literal or an integer. -/
def parseScalar (l : List Char) : Option (Scalar × List Char) :=
  match l with
  | [] => none
  | c :: rest =>
    if c = '\'' ∨ c = '"' then
      (parseQuoted c rest).map (fun p => (.str (String.mk p.1), p.2))
    else
      (parseInt l).map (fun p => (.int p.1, p.2))

/-- Parse a nonempty `", "`-separated scalar sequence up to the closing
parenthesis (also accepting the 1-tuple form `",)"`), with fuel. -/
def parseElems : ℕ → List Char → Option (List Scalar)
  | 0, _ => none
  | fuel + 1, l =>
    match parseScalar l with
    | none => none
    | some (x, rest) =>
      match rest with
      | [')'] => some [x]
      | [',', ')'] => some [x]
      | ',' :: ' ' :: rest2 =>
        match parseElems fuel rest2 with
        | none => none
        | some xs => some (x :: xs)
      | _ => none

/-- Parse a whole tuple string form back into its scalars. -/
def parseTuple (l : List Char) : Option (List Scalar) :=
  match l with
  | '(' :: rest => parseElems rest.length rest
  | _ => none

/-! ### The frame model

A pandas column is a label, a numeric-dtype flag and its cell values;
cell values are carried in their string rendering, which is all the
verified claims inspect.  A frame index is either flat or a MultiIndex
of tuples. -/

/-- One column of a frame. -/
structure Column where
  label : Scalar
  numeric : Bool
  values : List String
deriving DecidableEq

/-- The row index of a frame. -/
inductive FrameIndex where
  | flat (name : Option String) (entries : List Scalar)
  | multi (name : Option String) (entries : List (List Scalar))
deriving DecidableEq

/-- A pandas DataFrame. -/
structure Frame where
  cols : List Column
  index : FrameIndex
deriving DecidableEq

/-- The stringified column labels, i.e. `data.columns` after
`_valid_column` renaming. -/
def Frame.columnNames (f : Frame) : List String :=
  f.cols.map (fun c => pyStr c.label)

/-- The name carried by the index. -/
def FrameIndex.name : FrameIndex → Option String
  | .flat n _ => n
  | .multi n _ => n

/-- The index entries after the MultiIndex-flattening step of
`_preprocess_data`: `pd.Index([str(i) for i in data.index])` is only
assigned when the index is a MultiIndex, so flat entries stay as they
are and tuples become their Python string form. -/
def FrameIndex.strEntries : FrameIndex → List Scalar
  | .flat _ e => e
  | .multi _ e => e.map (fun t => .str (tupleStr t))

/-- `data.rename(columns=_valid_column)`: stringify all column labels.
pandas `rename` returns a new frame. -/
def renameFrame (f : Frame) : Frame :=
  { f with cols := f.cols.map (fun c => { c with label := .str (pyStr c.label) }) }

/-- `data[usecols]`: restrict to the named columns, in the given order.
(An absent label is a caller `KeyError`; the verified claims only ever
select labels that are present.) -/
def selectCols (f : Frame) (cs : List String) : Frame :=
  { f with cols := cs.filterMap (fun s => f.cols.find? (fun c => c.label == Scalar.str s)) }

/-- Whether an index is a MultiIndex. -/
def FrameIndex.isMulti : FrameIndex → Bool
  | .flat _ _ => false
  | .multi _ _ => true

/-- The MultiIndex flattening step of `_preprocess_data`:
`data.index = pd.Index([str(i) for i in data.index], name=...)`,
applied only when the index is a MultiIndex. -/
def flattenIndexFrame (f : Frame) : Frame :=
  if f.index.isMulti then { f with index := .flat f.index.name f.index.strEntries }
  else f

/-- `reset_index()` after the flattening step: materialise the (flat)
index as the first column — named `"index"` when the index is unnamed —
and install a fresh range index.  (pandas would expand a real
MultiIndex into one column per level, but the preprocessing always
flattens first, so only the flat form is modelled.) -/
def resetIndexFrame (f : Frame) : Frame :=
  let nm := f.index.name
  let entries := f.index.strEntries
  { cols := { label := .str (nm.getD "index"),
              numeric := entries.all Scalar.isInt,
              values := entries.map pyStr } :: f.cols,
    index := .flat none ((List.range entries.length).map (fun i => .int (i : ℤ))) }

/-- Embedding of `_DataFramePlotter._preprocess_data(with_index, usecols)`:
stringify the column labels, optionally select `usecols`, and when
`with_index` is true flatten a MultiIndex into string keys and
materialise the index as the first column via `reset_index()`. -/
def preprocessFrame (f : Frame) (withIndex : Bool) (usecols : Option (List String)) :
    Frame :=
  let data :=
    match usecols with
    | some cs => selectCols (renameFrame f) cs
    | none => renameFrame f
  if withIndex then resetIndexFrame (flattenIndexFrame data)
  else data

/-! ### Mark definitions and the `_xy` builder -/

/-- A mark definition, as produced by `_get_mark_def`. -/
structure MarkDef where
  type : String
  orient : Option String := none
  line : Bool := false
  opacity : Option ℚ := none
  color : Option String := none
deriving DecidableEq

/-- `_get_mark_def(mark, kwargs)`: a float `alpha` kwarg becomes the
mark's opacity, a string `color` kwarg its color. -/
def _get_mark_def (mark : MarkDef) (alpha : Option ℚ) (color : Option String) :
    MarkDef :=
  { mark with
    opacity := if alpha.isSome then alpha else mark.opacity,
    color := if color.isSome then color else mark.color }

/-- A positional encoding channel: a field reference with an optional
stacking mode. -/
structure ChannelRef where
  field : String
  stack : Option Bool := none
deriving DecidableEq

/-- The chart specification produced by `_xy`: the working data, a mark,
a fold transform over `foldColumns` (as `("column", "value")`), the
x/y/color/tooltip encodings, and an optional facet directive
`(field, columns)`. -/
structure ChartSpec where
  data : Frame
  mark : MarkDef
  foldColumns : List String
  x : ChannelRef
  y : ChannelRef
  color : String
  tooltip : List String
  facet : Option (String × Int) := none
deriving DecidableEq

/-- The shape of a chart spec: everything except the data reference. -/
structure ChartShape where
  mark : MarkDef
  foldColumns : List String
  x : ChannelRef
  y : ChannelRef
  color : String
  tooltip : List String
  facet : Option (String × Int)
deriving DecidableEq

/-- Strip the data reference from a chart spec. -/
def ChartSpec.shape (s : ChartSpec) : ChartShape :=
  { mark := s.mark, foldColumns := s.foldColumns, x := s.x, y := s.y,
    color := s.color, tooltip := s.tooltip, facet := s.facet }

/-- `x` resolution in `_xy`: default to the first working column; an
explicit `x` is stringified by `_valid_column` and asserted to be a
working column. -/
def resolveXCol (cols : List String) (x : Option Scalar) : Except String String :=
  match x with
  | Option.none =>
    match cols with
    | [] => .error "IndexError"
    | c :: _ => .ok c
  | some xv =>
    let xs := pyStr xv
    if xs ∈ cols then .ok xs else .error "AssertionError"

/-- `y` resolution in `_xy`: default to `list(data.columns[1:])` — all
working columns except the first — else the single column `[str(y)]`,
asserted to be a working column. -/
def resolveYCols (cols : List String) (y : Option Scalar) : Except String (List String) :=
  match y with
  | Option.none => .ok (cols.drop 1)
  | some yv =>
    let ys := pyStr yv
    if ys ∈ cols then .ok [ys] else .error "AssertionError"

/-- The unfaceted chart built by `_xy` from the resolved pieces. -/
def xyBase (data : Frame) (mark : MarkDef) (xv : String) (yvals : List String)
    (stacked : Bool) : ChartSpec :=
  { data := data,
    mark := mark,
    foldColumns := yvals,
    x := { field := xv },
    y := { field := "value", stack := some stacked },
    color := "column",
    tooltip := xv :: yvals,
    facet := Option.none }

/-- Embedding of `_DataFramePlotter._xy(mark, x, y, stacked, subplots, **kwargs)`:
preprocess with the index materialised; resolve `x` and the fold set of
`y` columns; fold the `y` columns, encode x, `value` (with the `stacked`
flag), color by `column`, tooltip `[x] + y_values`; with
`subplots=True`, facet by `column` with the column count from
`_get_layout(len(y_values), kwargs.get("layout", (-1, 1)))`. -/
def dfXy (f : Frame) (mark : MarkDef) (x y : Option Scalar) (stacked : Bool)
    (subplots : Bool) (layout : Option (List Int)) (alpha : Option ℚ)
    (color : Option String) : Except String ChartSpec :=
  let data := preprocessFrame f true none
  let cols := data.columnNames
  match resolveXCol cols x with
  | .error e => .error e
  | .ok xv =>
    match resolveYCols cols y with
    | .error e => .error e
    | .ok yvals =>
      let base := xyBase data (_get_mark_def mark alpha color) xv yvals stacked
      if subplots then
        match _get_layout (yvals.length : ℤ) (some (layout.getD [-1, 1])) with
        | .error e => .error e
        | .ok (_, ncols) => .ok { base with facet := some ("column", ncols) }
      else .ok base

/-- `_DataFramePlotter.line`. -/
def dfLine (f : Frame) (x y : Option Scalar) (stacked : Bool := false)
    (subplots : Bool := false) (layout : Option (List Int) := none)
    (alpha : Option ℚ := none) (color : Option String := none) :
    Except String ChartSpec :=
  dfXy f { type := "line" } x y stacked subplots layout alpha color

/-- `_DataFramePlotter.area`: `stacked=True` by default; an unstacked
area gets an outlined, half-transparent mark. -/
def dfArea (f : Frame) (x y : Option Scalar) (stacked : Bool := true)
    (subplots : Bool := false) (layout : Option (List Int) := none)
    (alpha : Option ℚ := none) (color : Option String := none) :
    Except String ChartSpec :=
  let mark : MarkDef :=
    if stacked then { type := "area" }
    else { type := "area", line := true, opacity := some (1/2) }
  dfXy f mark x y stacked subplots layout alpha color

/-- `_DataFramePlotter.bar`: a vertical bar mark through `_xy`; the
source carries a `TODO: bars should be grouped, not stacked.` comment
and has no small-table branch. -/
def dfBar (f : Frame) (x y : Option Scalar) (stacked : Bool := false)
    (subplots : Bool := false) (layout : Option (List Int) := none)
    (alpha : Option ℚ := none) (color : Option String := none) :
    Except String ChartSpec :=
  dfXy f { type := "bar", orient := some "vertical" } x y stacked subplots
    layout alpha color

/-- `_DataFramePlotter.barh`: the vertical-bar chart with the x and y
encoding channels exchanged post hoc. -/
def dfBarh (f : Frame) (x y : Option Scalar) (stacked : Bool := false)
    (subplots : Bool := false) (layout : Option (List Int) := none)
    (alpha : Option ℚ := none) (color : Option String := none) :
    Except String ChartSpec :=
  (dfXy f { type := "bar", orient := some "horizontal" } x y stacked subplots
    layout alpha color).map (fun c => { c with x := c.y, y := c.x })

/-! ### The box builder's column bookkeeping -/

/-- Values of the column named `name` (after label stringification);
`[]` if absent (an absent label is a caller `KeyError`). -/
def Frame.colValues (f : Frame) (name : String) : List String :=
  ((f.cols.find? (fun c => pyStr c.label == name)).map Column.values).getD []

/-- The number of rows of a frame, as counted by its index. -/
def Frame.nRows (f : Frame) : ℕ :=
  match f.index with
  | .flat _ e => e.length
  | .multi _ e => e.length

/-- `data[name] = vals`: replace the values of an existing column named
`name` in place, or append a new column.  The assigned label column is
string-valued, hence non-numeric. -/
def setColumn (f : Frame) (name : String) (vals : List String) : Frame :=
  if f.cols.any (fun c => pyStr c.label == name) then
    { f with cols := f.cols.map (fun c =>
        if pyStr c.label == name then { c with numeric := false, values := vals }
        else c) }
  else
    { f with cols := f.cols ++ [{ label := .str name, numeric := false, values := vals }] }

/-- Lexicographic comparison of character lists by code point, the
order Python uses on strings. -/
def charListLe : List Char → List Char → Bool
  | [], _ => true
  | _ :: _, [] => false
  | a :: as, b :: bs =>
    if a.toNat < b.toNat then true
    else if b.toNat < a.toNat then false
    else charListLe as bs

/-- String comparison by code points. -/
def strLe (a b : String) : Bool := charListLe a.data b.data

/-- Insert into a sorted list. -/
def insertSorted (s : String) : List String → List String
  | [] => [s]
  | t :: rest => if strLe s t then s :: t :: rest else t :: insertSorted s rest

/-- Insertion sort by `strLe`. -/
def sortStrings : List String → List String
  | [] => []
  | s :: rest => insertSorted s (sortStrings rest)

/-- `columns.difference(pd.Index(list(by)))`: the selected labels minus
the group keys; pandas `Index.difference` returns the result sorted. -/
def indexDifference (cols : List String) (by_ : List String) : List String :=
  sortStrings (cols.filter (fun c => decide (c ∉ by_)))

/-- The value-column selection of `box`: an explicit `column` argument
is taken as given; otherwise all numeric columns, minus the `by` group
keys when grouping. -/
def boxColumns (data : Frame) (column : Option (List String))
    (by_ : Option (List String)) : List String :=
  match column with
  | some cs => cs
  | none =>
    let nums := (data.cols.filter Column.numeric).map (fun c => pyStr c.label)
    match by_ with
    | some bys => indexDifference nums bys
    | none => nums

/-- `", ".join(...)` on strings. -/
def joinCommaSpace (l : List String) : String := String.mk (sepJoin (l.map String.data))

/-- `"".join(...)`: plain concatenation. -/
def concatAll : List String → List Char
  | [] => []
  | s :: rest => s.data ++ concatAll rest

/-- The name `box` stores the synthesized multi-key group label under:
`by_identifier` = `", ".join(by)` unless that is one of the *selected
value columns*, in which case `"".join(columns)`.  (The check is against
`columns`, not against all working-table columns.) -/
def boxByColumnName (columns : List String) (bys : List String) : String :=
  let i := joinCommaSpace bys
  if i ∈ columns then String.mk (concatAll columns) else i

/-- The per-row composite group label written by
`data[by].apply(lambda row: f"({', '.join(row)})", axis=1)`. -/
def rowJoinValues (f : Frame) (bys : List String) : List String :=
  (List.range f.nRows).map (fun i =>
    String.mk ('(' :: (sepJoin (bys.map (fun b => ((f.colValues b).getD i "").data))
      ++ [')'])))

/-! ### The heap of frame objects

Python frames are heap objects: `rename`, column selection with a list,
`reset_index` and `to_frame` return fresh frames (pandas documents them
as copying operations), while `data.index = ...` and `data[col] = ...`
assign in place.  Modelling the heap explicitly makes "the caller's
frame is never mutated" a real statement. -/

/-- A heap of frame objects; references are indices into it. -/
structure Heap where
  frames : List Frame
deriving DecidableEq

/-- Dereference (out-of-range reads yield an empty frame; the verified
statements only read valid references). -/
def Heap.get (h : Heap) (r : ℕ) : Frame :=
  (h.frames[r]?).getD { cols := [], index := .flat none [] }

/-- Allocate a fresh frame, returning the new heap and its reference. -/
def Heap.alloc (h : Heap) (f : Frame) : Heap × ℕ :=
  ({ frames := h.frames ++ [f] }, h.frames.length)

/-- Overwrite the frame at an existing reference (in-place mutation). -/
def Heap.set (h : Heap) (r : ℕ) (f : Frame) : Heap :=
  { frames := h.frames.set r f }

/-- A heap/reference pair `p` produced from `h` that keeps every
pre-existing reference intact and works on a fresh reference. -/
def Preserves (h : Heap) (p : Heap × ℕ) : Prop :=
  (∀ r, r < h.frames.length → p.1.get r = h.get r)
  ∧ h.frames.length ≤ p.2 ∧ h.frames.length ≤ p.1.frames.length

/-- Heap-level `_DataFramePlotter._preprocess_data`: `rename` allocates
a copy; a `usecols` selection allocates again; the MultiIndex
flattening assigns `data.index` in place on the working copy; then
`reset_index` allocates the final frame. -/
def preprocessHeap (h : Heap) (self : ℕ) (withIndex : Bool)
    (usecols : Option (List String)) : Heap × ℕ :=
  let p1 := h.alloc (renameFrame (h.get self))
  let p2 :=
    match usecols with
    | some cs => p1.1.alloc (selectCols (p1.1.get p1.2) cs)
    | none => p1
  if withIndex then
    let h3 := p2.1.set p2.2 (flattenIndexFrame (p2.1.get p2.2))
    h3.alloc (resetIndexFrame (h3.get p2.2))
  else p2

/-- Heap-level `_DataFramePlotter.box` up to its only data mutation:
preprocess (no index), and with a multi-key `by` write the synthesized
composite label column onto the working copy under `boxByColumnName`.
The chart construction that follows reads but never writes, and the
single-key branch (`by.pop()`) mutates the caller's *list*, not any
frame. -/
def boxMutate (p : Heap × ℕ) (column : Option (List String))
    (by_ : Option (List String)) : Heap × ℕ :=
  match by_ with
  | some bys =>
    if 1 < bys.length then
      (p.1.set p.2 (setColumn (p.1.get p.2)
        (boxByColumnName (boxColumns (p.1.get p.2) column (some bys)) bys)
        (rowJoinValues (p.1.get p.2) bys)), p.2)
    else p
  | none => p

/-- Heap-level `box`: preprocess (no index), then the mutation step. -/
def boxHeap (h : Heap) (self : ℕ) (column : Option (List String))
    (by_ : Option (List String)) : Heap × ℕ :=
  boxMutate (preprocessHeap h self false none) column by_

/-- Heap-level `_DataFramePlotter.hexbin` up to its only data mutation:
preprocess (no index), and when `C` is given write the reduced colour
column onto the working copy — under `C`, or `reduced_C` when `C` is one
of the axis columns.  The reduced values come from a groupby-transform
whose numeric content is irrelevant to the heap effect, so they are the
parameter `newVals`. -/
def hexbinMutate (p : Heap × ℕ) (x y : String) (C : Option String)
    (newVals : List String) : Heap × ℕ :=
  match C with
  | some c =>
    (p.1.set p.2 (setColumn (p.1.get p.2)
      (if c ≠ x ∧ c ≠ y then c else "reduced_" ++ c) newVals), p.2)
  | none => p

/-- Heap-level `hexbin`: preprocess (no index), then the mutation step. -/
def hexbinHeap (h : Heap) (self : ℕ) (x y : String) (C : Option String)
    (newVals : List String) : Heap × ℕ :=
  hexbinMutate (preprocessHeap h self false none) x y C newVals

/-! ### The plot dispatcher

`plot(data, kind, **kwargs)` resolves the plotter by input type and then
looks the kind up by *general attribute access*: `hasattr(plotter, kind)`
followed by `getattr` and a call.  Any attribute of the plotter class —
plot kinds, private helpers, the factory — is therefore callable through
`plot`; only a missing attribute produces `NotImplementedError`.
(Python dunder attributes, which behave the same way, are left out of
the modelled attribute table.) -/

/-- The outcome of invoking one plotter attribute with no keyword
arguments. -/
inductive CallResult where
  | chart (s : ChartSpec)
  | chartOther
  | frame (f : Frame)
  | raises (msg : String)
deriving DecidableEq

/-- `_SeriesPlotter.scatter(**kwargs)`: raises unconditionally, for
every combination of keyword arguments.  (The Python message is
`kind='scatter' can only be used for DataFrames.`.) -/
def seriesScatter (kwargs : List (String × Scalar)) : Except String ChartSpec :=
  .error "ValueError: kind=scatter can only be used for DataFrames."

/-- The attribute names of a `_SeriesPlotter` instance (class-defined,
including those inherited from `_PandasPlotter`). -/
def seriesAttrNames : List String :=
  ["create", "_get_mark_def", "_kde", "_preprocess_data", "_xy", "line",
   "bar", "barh", "area", "scatter", "hist", "hist_series", "box", "kde",
   "_data"]

/-- `getattr`-style lookup in an attribute table. -/
def attrLookup (l : List (String × CallResult)) (k : String) : Option CallResult :=
  match l with
  | [] => none
  | (n, r) :: rest => if n = k then some r else attrLookup rest k

/-- Wrap a builder result as a call outcome. -/
def toCallResult (r : Except String ChartSpec) : CallResult :=
  match r with
  | .ok s => .chart s
  | .error e => .raises e

/-- The attribute table of a `_DataFramePlotter` holding the frame `f`,
each entry paired with the outcome of calling it with no keyword
arguments: the factory and the helpers with required positional
parameters raise `TypeError`; `_preprocess_data` returns the working
*frame* (not a chart); the `_xy` family builds charts as embedded above;
`scatter` and `hexbin` require `x`/`y` and raise `TypeError`; the
remaining kinds build charts whose construction is not embedded here. -/
def dfPlotterAttrs (f : Frame) : List (String × CallResult) :=
  [ ("create", .raises "TypeError: missing required argument data"),
    ("_get_mark_def", .raises "TypeError: missing required argument mark"),
    ("_kde", .raises "TypeError: missing required argument data"),
    ("_preprocess_data", .frame (preprocessFrame f true none)),
    ("_xy", .raises "TypeError: missing required argument mark"),
    ("line", toCallResult (dfLine f none none)),
    ("area", toCallResult (dfArea f none none)),
    ("bar", toCallResult (dfBar f none none)),
    ("barh", toCallResult (dfBarh f none none)),
    ("scatter", .raises "TypeError: missing required arguments x, y"),
    ("hist", .chartOther),
    ("hist_frame", .chartOther),
    ("box", .chartOther),
    ("kde", .chartOther),
    ("hexbin", .raises "TypeError: missing required arguments x, y"),
    ("_data", .raises "TypeError: DataFrame object is not callable") ]

/-- The dispatcher `plot` for a Table input: attribute lookup by the
kind string; a hit is invoked (whatever it is), a miss raises
`NotImplementedError`. -/
def plotDF (f : Frame) (kind : String) : Except String CallResult :=
  match attrLookup (dfPlotterAttrs f) kind with
  | some r => .ok r
  | none => .error ("NotImplementedError: kind=" ++ kind)

/-! ### Concrete frames used in counterexamples and witnesses -/

/-- A two-row, two-column numeric table. -/
def exFrame : Frame :=
  { cols := [ { label := .str "a", numeric := true, values := ["1", "2"] },
              { label := .str "b", numeric := true, values := ["3", "4"] } ],
    index := .flat none [.int 0, .int 1] }

/-- A five-row (≤ 12), two-column numeric table. -/
def frame5 : Frame :=
  { cols := [ { label := .str "a", numeric := true,
                values := ["0", "1", "2", "3", "4"] },
              { label := .str "b", numeric := true,
                values := ["5", "6", "7", "8", "9"] } ],
    index := .flat none [.int 0, .int 1, .int 2, .int 3, .int 4] }

/-- A thirteen-row (> 12), two-column numeric table. -/
def frame13 : Frame :=
  { cols := [ { label := .str "a", numeric := true,
                values := ["0", "1", "2", "3", "4", "5", "6", "7", "8", "9",
                           "10", "11", "12"] },
              { label := .str "b", numeric := true,
                values := ["13", "14", "15", "16", "17", "18", "19", "20",
                           "21", "22", "23", "24", "25"] } ],
    index := .flat none [.int 0, .int 1, .int 2, .int 3, .int 4, .int 5,
      .int 6, .int 7, .int 8, .int 9, .int 10, .int 11, .int 12] }

/-- A table exercising the `box` multi-key `by` label synthesis: group
columns `a`, `b`, a string column literally named `"a, b"`, and one
numeric column `v`. -/
def byFrame : Frame :=
  { cols := [ { label := .str "a", numeric := false, values := ["p", "q"] },
              { label := .str "b", numeric := false, values := ["r", "s"] },
              { label := .str "a, b", numeric := false, values := ["x", "y"] },
              { label := .str "v", numeric := true, values := ["1", "2"] } ],
    index := .flat none [.int 0, .int 1] }

/-! ### Claim theorems: layout solver, KDE bandwidth and steps -/

/-- C1: for panel count `p ≥ 1` and a two-element layout with exactly
one negative entry (the other positive), `_get_layout` returns the
positive entry unchanged and infers the other as `⌈p / other⌉` (pinned
by the two ceiling inequalities), the resulting capacity covering all
panels; two negative entries raise an error; and every successfully
returned layout has capacity at least `p`. -/
theorem getLayout_spec (p r c : Int) (hp : 1 ≤ p) :
    (r < 0 → 0 < c →
      _get_layout p (some [r, c]) = .ok (ceilDiv p c, c) ∧
      p ≤ ceilDiv p c * c ∧ (ceilDiv p c - 1) * c < p)
    ∧ (0 < r → c < 0 →
      _get_layout p (some [r, c]) = .ok (r, ceilDiv p r) ∧
      p ≤ r * ceilDiv p r ∧ r * (ceilDiv p r - 1) < p)
    ∧ (r < 0 → c < 0 → ∃ e, _get_layout p (some [r, c]) = .error e)
    ∧ (∀ r' c', _get_layout p (some [r, c]) = .ok (r', c') → p ≤ r' * c') := by
  have hred : _get_layout p (some [r, c]) = layoutCore p r c := rfl
  refine ⟨?_, ?_, ?_, ?_⟩
  · intro hr hc
    have hle := le_ceilDiv_mul p c hc
    have hlt := ceilDiv_mul_lt p c hc
    refine ⟨?_, hle, hlt⟩
    rw [hred]
    unfold layoutCore
    rw [if_neg (show ¬(r < 0 ∧ c < 0) by omega), if_pos hr,
      if_neg (show ¬ c = 0 by omega),
      if_neg (show ¬ p > ceilDiv p c * c by linarith)]
  · intro hr hc
    have hle := le_ceilDiv_mul p r hr
    have hlt := ceilDiv_mul_lt p r hr
    refine ⟨?_, by nlinarith [hle], by nlinarith [hlt]⟩
    rw [hred]
    unfold layoutCore
    rw [if_neg (show ¬(r < 0 ∧ c < 0) by omega),
      if_neg (show ¬ r < 0 by omega), if_pos hc,
      if_neg (show ¬ r = 0 by omega),
      if_neg (show ¬ p > r * ceilDiv p r by linarith)]
  · intro hr hc
    exact ⟨_, by rw [hred]; unfold layoutCore; rw [if_pos ⟨hr, hc⟩]⟩
  · intro r' c' h
    rw [hred] at h
    unfold layoutCore at h
    split_ifs at h <;>
      simp only [Except.ok.injEq, Prod.mk.injEq, reduceCtorEq] at h <;>
      obtain ⟨h5, h6⟩ := h <;> subst h5 <;> subst h6 <;> linarith

/-- Witness for `getLayout_spec`: the docstring example
`_get_layout(6, (-1, 2)) = (3, 2)`. -/
theorem getLayout_spec_witness :
    _get_layout 6 (some [-1, 2]) = .ok (3, 2) := by
  have h := ((getLayout_spec 6 (-1) 2 (by norm_num)).1 (by norm_num)
    (by norm_num)).1
  have e : ceilDiv 6 2 = 3 := by decide
  rw [e] at h
  exact h

/-- C4: `bw_method` resolution in `_kde`: `None` and `"scott"` give
bandwidth `0`; `"silverman"` on `n` rows gives `(n * 3 / 4) ^ (-1/5)`
(i.e. `(n * (d + 2) / 4) ^ (-1 / (d + 4))` with `d = 1`); a numeric
value passes through unchanged. -/
theorem kde_bandwidth_resolution (n ncols : ℕ) (x : ℚ) :
    (kdeBandwidth .none n ncols).1 = .num 0
    ∧ (kdeBandwidth .scott n ncols).1 = .num 0
    ∧ (kdeBandwidth .silverman n ncols).1 =
        .pow ((n : ℚ) * 3 / 4) (-1 / 5)
    ∧ (kdeBandwidth (.numeric x) n ncols).1 = .num x := by
  refine ⟨rfl, rfl, ?_, rfl⟩
  unfold kdeBandwidth
  norm_num

/-- C8 counterexample: a plain Python list is sequence-valued, yet the
code's `isinstance(ind, np.ndarray)` test does not catch it: no warning
is emitted and the list is used as `steps` unchanged instead of falling
back to 1000 steps. -/
theorem kde_steps_pylist_counterexample :
    kdeSteps (.pylist [1, 2]) = (.seq [1, 2], false)
    ∧ (StepsVal.seq [1, 2] ≠ .int 1000) := by
  refine ⟨rfl, by decide⟩

/-- C8 amended: `ind=None` gives 1000 steps, an integer `ind` gives
exactly that many steps, and a NumPy-array `ind` warns and falls back to
1000 steps; any other value (e.g. a plain Python list) is passed through
as `steps` unchanged without a warning. -/
theorem kde_steps_resolution (n : ℤ) (xs : List ℚ) :
    kdeSteps .none = (.int 1000, false)
    ∧ kdeSteps (.int n) = (.int n, false)
    ∧ kdeSteps (.ndarray xs) = (.int 1000, true)
    ∧ kdeSteps (.pylist xs) = (.seq xs, false) :=
  ⟨rfl, rfl, rfl, rfl⟩

/-! ### Claim theorems: the `_xy` fold set (C2) and the bar builder (C3) -/

/-- C2 counterexample: on a table with columns `a`, `b` (working columns
`["index", "a", "b"]`), an explicitly supplied non-first `x="a"` with
`y` unspecified folds `["a", "b"]` — the fold set contains the resolved
x column instead of excluding it. -/
theorem xy_fold_explicit_x_counterexample :
    (dfXy exFrame { type := "line" } (some (.str "a")) none false false none
        none none).toOption.map (fun s => s.x.field) = some "a"
    ∧ (dfXy exFrame { type := "line" } (some (.str "a")) none false false none
        none none).toOption.map ChartSpec.foldColumns = some ["a", "b"]
    ∧ "a" ∈ ["a", "b"] := by
  refine ⟨by decide, by decide, by decide⟩

/-- C2 amended: with `y` unspecified the fold set is exactly the working
columns *except the first*; only when `x` is also unspecified does this
coincide with "all working columns except the resolved x". -/
theorem xy_fold_columns_amended (f : Frame) (mark : MarkDef) (x : Option Scalar)
    (stacked : Bool) (alpha : Option ℚ) (color : Option String) :
    (∀ s, dfXy f mark x none stacked false none alpha color = .ok s →
      s.foldColumns = (preprocessFrame f true none).columnNames.drop 1)
    ∧ (∀ s, dfXy f mark none none stacked false none alpha color = .ok s →
      s.foldColumns = ((preprocessFrame f true none).columnNames).erase s.x.field) := by
  constructor
  · intro s h
    simp only [dfXy] at h
    rcases hx : resolveXCol (preprocessFrame f true none).columnNames x with e | xv
    · rw [hx] at h; exact absurd h (by simp)
    · rw [hx] at h
      rw [show resolveYCols (preprocessFrame f true none).columnNames none =
          .ok ((preprocessFrame f true none).columnNames.drop 1) from rfl] at h
      simp only [Bool.false_eq_true, if_false] at h
      injection h with h'
      subst h'
      rfl
  · intro s h
    simp only [dfXy] at h
    cases hc : (preprocessFrame f true none).columnNames with
    | nil =>
      rw [hc] at h
      exact absurd h (by simp [resolveXCol])
    | cons c rest =>
      rw [hc] at h
      rw [show resolveXCol (c :: rest) none = .ok c from rfl] at h
      rw [show resolveYCols (c :: rest) none = .ok ((c :: rest).drop 1) from rfl] at h
      simp only [Bool.false_eq_true, if_false] at h
      injection h with h'
      subst h'
      simp [xyBase, List.erase_cons_head]

/-- Witness for `xy_fold_columns_amended`: on the concrete two-column
table the default-x fold set is `["a", "b"]`, i.e. the working columns
minus the first. -/
theorem xy_fold_columns_amended_witness :
    (dfXy exFrame { type := "line" } none none false false none none
        none).toOption.map ChartSpec.foldColumns =
      some ((preprocessFrame exFrame true none).columnNames.drop 1) := by
  cases hs : dfXy exFrame { type := "line" } none none false false none none none with
  | error e =>
    have hok : (dfXy exFrame { type := "line" } none none false false none none
        none).toOption.isSome = true := by decide
    rw [hs] at hok
    simp [Except.toOption] at hok
  | ok s =>
    have h := (xy_fold_columns_amended exFrame { type := "line" } none false
      none none).1 s hs
    simp [Except.toOption, h]

/-- C3 counterexample: on a concrete five-row table (≤ 12 rows),
`bar` with default options emits no facet directive, and its whole
chart shape (mark, fold, encodings, facet) is identical to the one
produced for a thirteen-row table — there is no small-table branch. -/
theorem bar_small_table_counterexample :
    (dfBar frame5 none none).toOption.map ChartSpec.facet = some none
    ∧ (dfBar frame5 none none).toOption.map ChartSpec.shape =
        (dfBar frame13 none none).toOption.map ChartSpec.shape := by
  refine ⟨by decide, by decide⟩

/-- C3 amended: for every Table input — whatever its row count — `bar`
without `subplots` produces the single stacked vertical-bar chart with
no facet directive, and the chart shape depends only on the working
columns, not on the rows. -/
theorem bar_no_small_table_branch (f g : Frame) (x y : Option Scalar)
    (stacked : Bool) (alpha : Option ℚ) (color : Option String) :
    (∀ s, dfBar f x y stacked false none alpha color = .ok s →
      s.facet = none ∧ s.mark.type = "bar" ∧ s.mark.orient = some "vertical" ∧
      s.y = { field := "value", stack := some stacked })
    ∧ (∀ s s', dfBar f x y stacked false none alpha color = .ok s →
      dfBar g x y stacked false none alpha color = .ok s' →
      (preprocessFrame f true none).columnNames =
        (preprocessFrame g true none).columnNames →
      s.shape = s'.shape) := by
  constructor
  · intro s h
    simp only [dfBar, dfXy] at h
    rcases hx : resolveXCol (preprocessFrame f true none).columnNames x with e | xv
    · rw [hx] at h; exact absurd h (by simp)
    rw [hx] at h
    rcases hy : resolveYCols (preprocessFrame f true none).columnNames y with e | yv
    · rw [hy] at h; exact absurd h (by simp)
    rw [hy] at h
    simp only [Bool.false_eq_true, if_false] at h
    injection h with h'
    subst h'
    exact ⟨rfl, rfl, rfl, rfl⟩
  · intro s s' hf hg hcols
    simp only [dfBar, dfXy] at hf hg
    rw [← hcols] at hg
    rcases hx : resolveXCol (preprocessFrame f true none).columnNames x with e | xv
    · rw [hx] at hf; exact absurd hf (by simp)
    rw [hx] at hf hg
    rcases hy : resolveYCols (preprocessFrame f true none).columnNames y with e | yv
    · rw [hy] at hf; exact absurd hf (by simp)
    rw [hy] at hf hg
    simp only [Bool.false_eq_true, if_false] at hf hg
    injection hf with hf'
    injection hg with hg'
    subst hf'
    subst hg'
    rfl

/-- Witness for `bar_no_small_table_branch` at the concrete five- and
thirteen-row tables. -/
theorem bar_no_small_table_branch_witness :
    (dfBar frame5 none none).toOption.map ChartSpec.facet = some none := by
  cases hs : dfBar frame5 none none with
  | error e =>
    have hok : (dfBar frame5 none none).toOption.isSome = true := by decide
    rw [hs] at hok
    simp [Except.toOption] at hok
  | ok s =>
    have h := ((bar_no_small_table_branch frame5 frame13 none none false
      none none).1 s hs).1
    simp [Except.toOption, h]

/-! ### Heap lemmas and the non-mutation theorem (C5) -/

/-- Allocation does not disturb existing references. -/
theorem Heap.get_alloc_lt (h : Heap) (f : Frame) (r : ℕ)
    (hr : r < h.frames.length) : (h.alloc f).1.get r = h.get r := by
  simp only [Heap.alloc, Heap.get]
  rw [List.getElem?_append_left hr]

/-- The reference returned by allocation. -/
theorem Heap.alloc_ref (h : Heap) (f : Frame) : (h.alloc f).2 = h.frames.length :=
  rfl

/-- Allocation grows the heap by one. -/
theorem Heap.alloc_length (h : Heap) (f : Frame) :
    (h.alloc f).1.frames.length = h.frames.length + 1 := by
  simp [Heap.alloc]

/-- In-place overwrite of one reference leaves the others unchanged. -/
theorem Heap.get_set_ne (h : Heap) (r' r : ℕ) (f : Frame) (hne : r' ≠ r) :
    (h.set r' f).get r = h.get r := by
  simp only [Heap.set, Heap.get]
  rw [List.getElem?_set_ne hne]

/-- Overwriting preserves the heap size. -/
theorem Heap.set_length (h : Heap) (r : ℕ) (f : Frame) :
    (h.set r f).frames.length = h.frames.length := by
  simp [Heap.set]

/-- A fresh allocation preserves the original heap. -/
theorem preserves_alloc (h : Heap) (f : Frame) : Preserves h (h.alloc f) :=
  ⟨fun r hr => Heap.get_alloc_lt h f r hr, le_refl _, by
    rw [Heap.alloc_length]; omega⟩

/-- Allocating on top of a preserving pipeline still preserves. -/
theorem Preserves.alloc_next {h : Heap} {p : Heap × ℕ} (hp : Preserves h p)
    (f : Frame) : Preserves h (p.1.alloc f) := by
  obtain ⟨h1, h2, h3⟩ := hp
  refine ⟨fun r hr => ?_, ?_, ?_⟩
  · rw [Heap.get_alloc_lt p.1 f r (by omega)]
    exact h1 r hr
  · rw [Heap.alloc_ref]; omega
  · rw [Heap.alloc_length]; omega

/-- Mutating the pipeline's own working reference still preserves. -/
theorem Preserves.set_work {h : Heap} {p : Heap × ℕ} (hp : Preserves h p)
    (f : Frame) : Preserves h (p.1.set p.2 f, p.2) := by
  obtain ⟨h1, h2, h3⟩ := hp
  refine ⟨fun r hr => ?_, h2, ?_⟩
  · rw [Heap.get_set_ne p.1 p.2 r f (by omega)]
    exact h1 r hr
  · rw [Heap.set_length]; omega

/-- `_preprocess_data` only allocates fresh frames and mutates those:
every pre-existing reference still holds its old frame, and the returned
working reference is a fresh one. -/
theorem preprocessHeap_preserves (h : Heap) (self : ℕ) (w : Bool)
    (u : Option (List String)) : Preserves h (preprocessHeap h self w u) := by
  cases u with
  | none =>
    cases w with
    | false => exact preserves_alloc h _
    | true => exact ((preserves_alloc h _).set_work _).alloc_next _
  | some cs =>
    cases w with
    | false => exact (preserves_alloc h _).alloc_next _
    | true => exact (((preserves_alloc h _).alloc_next _).set_work _).alloc_next _

/-- C5: no plot-building operation mutates the caller's frame.  For
every heap, every pre-existing reference `r` (in particular the caller's
input frame) holds the same frame — same columns, values and index —
after `_preprocess_data` (used by every builder), after `box` (which
writes a synthesized label column), and after `hexbin` (which writes a
reduced colour column): only freshly allocated working copies are
mutated. -/
theorem no_input_mutation (h : Heap) (self r : ℕ) (hr : r < h.frames.length)
    (w : Bool) (u : Option (List String)) (column by_ : Option (List String))
    (x y : String) (C : Option String) (newVals : List String) :
    (preprocessHeap h self w u).1.get r = h.get r
    ∧ (boxHeap h self column by_).1.get r = h.get r
    ∧ (hexbinHeap h self x y C newVals).1.get r = h.get r := by
  have hp := preprocessHeap_preserves h self false none
  refine ⟨(preprocessHeap_preserves h self w u).1 r hr, ?_, ?_⟩
  · cases by_ with
    | none => exact hp.1 r hr
    | some bys =>
      simp only [boxHeap, boxMutate]
      by_cases hb : 1 < bys.length
      · rw [if_pos hb]
        exact (hp.set_work _).1 r hr
      · rw [if_neg hb]
        exact hp.1 r hr
  · cases C with
    | none => exact hp.1 r hr
    | some c =>
      simp only [hexbinHeap, hexbinMutate]
      exact (hp.set_work _).1 r hr

/-- Witness for `no_input_mutation`: a one-frame heap run through the
mutating `box` path leaves the caller's frame untouched. -/
theorem no_input_mutation_witness :
    (boxHeap ⟨[byFrame]⟩ 0 none (some ["a", "b"])).1.get 0 =
      Heap.get ⟨[byFrame]⟩ 0 :=
  (no_input_mutation ⟨[byFrame]⟩ 0 0 (by decide) false none none
    (some ["a", "b"]) "x" "y" none []).2.1

/-! ### Claim theorems: the `box` composite-label column name (C9) -/

/-- Every member's rendering is no longer than the whole concatenation. -/
theorem length_le_concatAll (l : List String) (c : String) (hc : c ∈ l) :
    c.data.length ≤ (concatAll l).length := by
  induction l with
  | nil => cases hc
  | cons a t ih =>
    rcases List.mem_cons.mp hc with rfl | hc
    · simp only [concatAll, List.length_append]
      omega
    · have := ih hc
      simp only [concatAll, List.length_append]
      omega

/-- A nonempty list of nonempty strings concatenates to something
nonempty. -/
theorem concatAll_pos (l : List String) (hl : l ≠ [])
    (hne : ∀ c ∈ l, c ≠ "") : 1 ≤ (concatAll l).length := by
  cases l with
  | nil => exact absurd rfl hl
  | cons a t =>
    have ha : a ≠ "" := hne a (List.mem_cons_self a t)
    have had : a.data ≠ [] := fun hd => ha (String.ext hd)
    simp only [concatAll, List.length_append]
    have := List.length_pos.mpr had
    omega

/-- With at least two nonempty strings, each member is strictly shorter
than the concatenation. -/
theorem length_lt_concatAll (l : List String) (c : String) (hc : c ∈ l)
    (h2 : 2 ≤ l.length) (hne : ∀ s ∈ l, s ≠ "") :
    c.data.length < (concatAll l).length := by
  cases l with
  | nil => cases hc
  | cons a t =>
    have ht : t ≠ [] := by
      intro h
      subst h
      simp at h2
    rcases List.mem_cons.mp hc with rfl | hc
    · have := concatAll_pos t ht (fun s hs => hne s (List.mem_cons_of_mem _ hs))
      simp only [concatAll, List.length_append]
      omega
    · have h1 := length_le_concatAll t c hc
      have ha : a ≠ "" := hne a (List.mem_cons_self a t)
      have had : a.data ≠ [] := fun hd => ha (String.ext hd)
      have := List.length_pos.mpr had
      simp only [concatAll, List.length_append]
      omega

/-- C9 counterexample: with group keys `by=["a", "b"]`, the synthetic
label is stored under `"a, b"` — which is an existing working-table
column (a non-numeric one, hence not among the selected value columns) —
and that column's data is overwritten by the composite labels. -/
theorem box_by_collision_counterexample :
    boxByColumnName
        (boxColumns (preprocessFrame byFrame false none) none (some ["a", "b"]))
        ["a", "b"] = "a, b"
    ∧ "a, b" ∈ (preprocessFrame byFrame false none).columnNames
    ∧ ((boxHeap ⟨[byFrame]⟩ 0 none (some ["a", "b"])).1.get
          (boxHeap ⟨[byFrame]⟩ 0 none (some ["a", "b"])).2).colValues "a, b" ≠
        (preprocessFrame byFrame false none).colValues "a, b" := by
  refine ⟨by decide, by decide, by decide⟩

/-- C9 amended: the collision check in `box` is only against the
*selected value columns*: the synthetic label name avoids those —
unconditionally when `", ".join(by)` is not one of them, and otherwise
provided there are at least two selected columns, all nonempty.  It may
still coincide with a non-selected working-table column (see the
counterexample). -/
theorem box_by_column_name_spec (columns bys : List String) :
    (joinCommaSpace bys ∉ columns → boxByColumnName columns bys ∉ columns)
    ∧ (2 ≤ columns.length → (∀ c ∈ columns, c ≠ "") →
      boxByColumnName columns bys ∉ columns) := by
  constructor
  · intro hni
    unfold boxByColumnName
    rw [if_neg hni]
    exact hni
  · intro h2 hne
    unfold boxByColumnName
    by_cases hin : joinCommaSpace bys ∈ columns
    · rw [if_pos hin]
      intro hmem
      have hlt := length_lt_concatAll columns _ hmem h2 hne
      exact absurd hlt (lt_irrefl _)
    · rw [if_neg hin]
      exact hin

/-- Witness for `box_by_column_name_spec` on concrete columns. -/
theorem box_by_column_name_spec_witness :
    boxByColumnName ["v", "w"] ["a", "b"] ∉ ["v", "w"] :=
  (box_by_column_name_spec ["v", "w"] ["a", "b"]).2 (by decide) (by decide)

/-! ### Claim theorems: the dispatcher (C7, C10) -/

/-- Attribute lookup misses exactly the names outside the table. -/
theorem attrLookup_eq_none_iff (l : List (String × CallResult)) (k : String) :
    attrLookup l k = none ↔ k ∉ l.map Prod.fst := by
  induction l with
  | nil => simp [attrLookup]
  | cons p rest ih =>
    obtain ⟨n, r⟩ := p
    by_cases hn : n = k
    · subst hn
      simp [attrLookup]
    · rw [attrLookup, if_neg hn]
      simp only [List.map_cons, List.mem_cons]
      constructor
      · intro h hmem
        rcases hmem with h1 | h2
        · exact hn h1.symm
        · exact (ih.mp h) h2
      · intro h
        exact ih.mpr (fun hm => h (Or.inr hm))

/-- C7: on a Series input, `scatter` raises its `ValueError` whatever
the other arguments are, and never produces a chart; the dispatcher
resolves `kind="scatter"` to this method (it is an attribute of the
Series plotter), so `plot(series, kind="scatter", ...)` raises it. -/
theorem series_scatter_raises (kwargs : List (String × Scalar)) :
    seriesScatter kwargs =
      .error "ValueError: kind=scatter can only be used for DataFrames."
    ∧ (∀ s, seriesScatter kwargs ≠ .ok s)
    ∧ "scatter" ∈ seriesAttrNames :=
  ⟨rfl, fun _ h => Except.noConfusion h, by decide⟩

/-- C10: the dispatcher raises its unsupported-kind error exactly when
the kind string names no attribute of the plotter; attribute names that
are not plot kinds are invoked instead of rejected — `create`, `_kde`
and `_get_mark_def` fail only inside the call (`TypeError`), and
`_preprocess_data` is invoked successfully and returns the working
frame, which is not a chart specification. -/
theorem plot_dispatch_attr_lookup (f : Frame) (kind : String) :
    ((∃ e, plotDF f kind = .error e) ↔ kind ∉ (dfPlotterAttrs f).map Prod.fst)
    ∧ plotDF f "_preprocess_data" = .ok (.frame (preprocessFrame f true none))
    ∧ (∀ s, CallResult.frame (preprocessFrame f true none) ≠ .chart s)
    ∧ plotDF f "create" = .ok (.raises "TypeError: missing required argument data")
    ∧ plotDF f "_kde" = .ok (.raises "TypeError: missing required argument data")
    ∧ plotDF f "_get_mark_def" =
        .ok (.raises "TypeError: missing required argument mark") := by
  refine ⟨?_, rfl, fun _ h => CallResult.noConfusion h, rfl, rfl, rfl⟩
  cases hA : attrLookup (dfPlotterAttrs f) kind with
  | none =>
    constructor
    · intro _
      exact (attrLookup_eq_none_iff _ _).mp hA
    · intro _
      refine ⟨"NotImplementedError: kind=" ++ kind, ?_⟩
      unfold plotDF
      rw [hA]
  | some r =>
    constructor
    · rintro ⟨e, he⟩
      unfold plotDF at he
      rw [hA] at he
      exact Except.noConfusion he
    · intro hnot
      have hnone := (attrLookup_eq_none_iff (dfPlotterAttrs f) kind).mpr hnot
      rw [hA] at hnone
      exact Option.noConfusion hnone

/-! ### Decimal rendering: roundtrip facts -/

/-- The fuelled digit computation agrees with `Nat.digits 10`. -/
theorem natDigitsAux_eq (fuel : ℕ) : ∀ n, n ≤ fuel → natDigitsAux fuel n = Nat.digits 10 n := by
  induction fuel with
  | zero =>
    intro n hn
    interval_cases n
    simp [natDigitsAux, Nat.digits_zero]
  | succ f ih =>
    intro n hn
    match n with
    | 0 => simp [natDigitsAux, Nat.digits_zero]
    | m + 1 =>
      rw [natDigitsAux, Nat.digits_def' (by norm_num : (1:ℕ) < 10) (Nat.succ_pos m)]
      congr 1
      exact ih _ (by omega : (m + 1) / 10 ≤ f)

/-- `natDigits` computes `Nat.digits 10`. -/
theorem natDigits_eq (n : ℕ) : natDigits n = Nat.digits 10 n :=
  natDigitsAux_eq n n le_rfl

/-- All entries of `natDigits` are digits. -/
theorem natDigits_lt (n : ℕ) : ∀ d ∈ natDigits n, d < 10 := by
  rw [natDigits_eq]
  exact fun d hd => Nat.digits_lt_base (by norm_num) hd

/-- Digit characters are digits. -/
theorem digitChar_isDigit (d : ℕ) (hd : d < 10) : (digitChar d).isDigit = true := by
  interval_cases d <;> decide

/-- `digitVal` inverts `digitChar` on digits. -/
theorem digitVal_digitChar (d : ℕ) (hd : d < 10) : digitVal (digitChar d) = d := by
  interval_cases d <;> decide

/-- A decimal rendering is never empty. -/
theorem natStr_ne_nil (n : ℕ) : natStr n ≠ [] := by
  unfold natStr
  by_cases h : n = 0
  · simp [h]
  · rw [if_neg h]
    intro hc
    apply (Nat.digits_ne_nil_iff_ne_zero.mpr h)
    rw [← natDigits_eq]
    have := congrArg List.length hc
    simp at this
    exact this

/-- A decimal rendering consists of digit characters. -/
theorem natStr_all_digit (n : ℕ) : ∀ c ∈ natStr n, c.isDigit = true := by
  unfold natStr
  by_cases h : n = 0
  · simp [h]
  · rw [if_neg h]
    intro c hc
    rw [List.mem_map] at hc
    obtain ⟨d, hd, rfl⟩ := hc
    exact digitChar_isDigit d (natDigits_lt n d (List.mem_reverse.mp hd))

/-- A digit character is not a quote, a minus sign, a comma, a space, a
parenthesis or a backslash. -/
theorem isDigit_excludes (c : Char) (h : c.isDigit = true) :
    c ≠ '-' ∧ c ≠ '\'' ∧ c ≠ '"' ∧ c ≠ ',' ∧ c ≠ ')' := by
  refine ⟨?_, ?_, ?_, ?_, ?_⟩ <;> (intro hc; subst hc; exact absurd h (by decide))

/-- `takeWhile` over a digit run followed by a non-digit boundary. -/
theorem takeWhile_digits_append (xs rest : List Char)
    (h1 : ∀ x ∈ xs, x.isDigit = true)
    (h2 : ∀ c, rest.head? = some c → c.isDigit = false) :
    (xs ++ rest).takeWhile Char.isDigit = xs
    ∧ (xs ++ rest).dropWhile Char.isDigit = rest := by
  induction xs with
  | nil =>
    simp only [List.nil_append]
    cases rest with
    | nil => simp
    | cons r t =>
      have hr := h2 r rfl
      rw [List.takeWhile_cons, List.dropWhile_cons, if_neg (by simp [hr]),
        if_neg (by simp [hr])]
      exact ⟨rfl, rfl⟩
  | cons x t ih =>
    have hx := h1 x (List.mem_cons_self x t)
    have := ih (fun y hy => h1 y (List.mem_cons_of_mem x hy))
    rw [List.cons_append, List.takeWhile_cons, List.dropWhile_cons,
      if_pos (by simp [hx]), if_pos (by simp [hx])]
    exact ⟨by rw [this.1], this.2⟩

/-- Horner evaluation of the rendered digits recovers the value. -/
theorem foldl_digits (ds : List ℕ) (h : ∀ d ∈ ds, d < 10) (a : ℕ) :
    (ds.reverse.map digitChar).foldl (fun acc c => 10 * acc + digitVal c) a
      = a * 10 ^ ds.length + Nat.ofDigits 10 ds := by
  induction ds generalizing a with
  | nil => simp
  | cons d t ih =>
    have hd : d < 10 := h d (List.mem_cons_self d t)
    have ht : ∀ x ∈ t, x < 10 := fun x hx => h x (List.mem_cons_of_mem d hx)
    rw [List.reverse_cons, List.map_append, List.foldl_append, ih ht a]
    simp only [List.map_cons, List.map_nil, List.foldl_cons, List.foldl_nil]
    rw [digitVal_digitChar d hd, Nat.ofDigits_cons, List.length_cons, pow_succ]
    ring

/-- `parseNat` inverts `natStr` at a non-digit boundary. -/
theorem parseNat_natStr (n : ℕ) (rest : List Char)
    (h2 : ∀ c, rest.head? = some c → c.isDigit = false) :
    parseNat (natStr n ++ rest) = some (n, rest) := by
  obtain ⟨htake, hdrop⟩ := takeWhile_digits_append (natStr n) rest
    (natStr_all_digit n) h2
  unfold parseNat
  rw [htake, hdrop, if_neg (natStr_ne_nil n)]
  congr 1
  unfold natStr
  by_cases h : n = 0
  · subst h
    rfl
  · rw [if_neg h]
    rw [foldl_digits (natDigits n) (natDigits_lt n) 0]
    rw [natDigits_eq, Nat.ofDigits_digits]
    simp

/-- The first character of `natStr` is a digit. -/
theorem natStr_head_digit (n : ℕ) :
    ∃ c t, natStr n = c :: t ∧ c.isDigit = true := by
  cases hs : natStr n with
  | nil => exact absurd hs (natStr_ne_nil n)
  | cons c t =>
    refine ⟨c, t, rfl, ?_⟩
    exact natStr_all_digit n c (by rw [hs]; exact List.mem_cons_self c t)

/-- One-step unfolding of `parseInt` on a cons cell. -/
theorem parseInt_cons (c : Char) (l : List Char) :
    parseInt (c :: l) =
      if c = '-' then (parseNat l).map (fun p => (-(p.1 : ℤ), p.2))
      else (parseNat (c :: l)).map (fun p => ((p.1 : ℤ), p.2)) := rfl

/-- `parseInt` inverts `intStr` at a non-digit boundary. -/
theorem parseInt_intStr (n : ℤ) (rest : List Char)
    (h2 : ∀ c, rest.head? = some c → c.isDigit = false) :
    parseInt (intStr n ++ rest) = some (n, rest) := by
  unfold intStr
  by_cases hn : n < 0
  · rw [if_pos hn, List.cons_append, parseInt_cons, if_pos rfl,
      parseNat_natStr n.natAbs rest h2]
    simp only [Option.map_some']
    congr 2
    omega
  · rw [if_neg hn]
    obtain ⟨c, t, hct, hcd⟩ := natStr_head_digit n.natAbs
    rw [hct, List.cons_append, parseInt_cons,
      if_neg (isDigit_excludes c hcd).1]
    rw [← List.cons_append, ← hct, parseNat_natStr n.natAbs rest h2]
    simp only [Option.map_some']
    congr 2
    omega

/-! ### Quoted strings: roundtrip facts -/

/-- One-step unfolding of `parseQuoted` on a cons cell. -/
theorem parseQuoted_cons (q c : Char) (rest : List Char) :
    parseQuoted q (c :: rest) =
      if c = q then some ([], rest)
      else if c = '\\' then
        match rest with
        | [] => none
        | d :: rest2 => (parseQuoted q rest2).map (fun p => (d :: p.1, p.2))
      else (parseQuoted q rest).map (fun p => (c :: p.1, p.2)) := by
  rw [parseQuoted.eq_def]

/-- `parseQuoted` undoes `escapeStr` up to the closing delimiter. -/
theorem parseQuoted_escape (q : Char) (hq : q ≠ '\\') (s : List Char) :
    ∀ rest, parseQuoted q (escapeStr q s ++ (q :: rest)) = some (s, rest) := by
  induction s with
  | nil =>
    intro rest
    simp only [escapeStr, List.nil_append]
    rw [parseQuoted_cons, if_pos rfl]
  | cons c t ih =>
    intro rest
    simp only [escapeStr]
    by_cases hc1 : c = '\\'
    · subst hc1
      have e1 : escapeChar q '\\' = ['\\', '\\'] := by simp [escapeChar]
      rw [e1]
      show parseQuoted q ('\\' :: ('\\' :: (escapeStr q t ++ q :: rest))) = _
      rw [parseQuoted_cons, if_neg (fun h => hq h.symm), if_pos rfl]
      show (parseQuoted q (escapeStr q t ++ q :: rest)).map
        (fun p => ('\\' :: p.1, p.2)) = _
      rw [ih rest]
      rfl
    · by_cases hc2 : c = q
      · subst hc2
        have e1 : escapeChar c c = ['\\', c] := by
          unfold escapeChar
          rw [if_neg hc1, if_pos rfl]
        rw [e1]
        show parseQuoted c ('\\' :: (c :: (escapeStr c t ++ c :: rest))) = _
        rw [parseQuoted_cons, if_neg (fun h => hq h.symm), if_pos rfl]
        show (parseQuoted c (escapeStr c t ++ c :: rest)).map
          (fun p => (c :: p.1, p.2)) = _
        rw [ih rest]
        rfl
      · have e1 : escapeChar q c = [c] := by
          unfold escapeChar
          rw [if_neg hc1, if_neg hc2]
        rw [e1]
        show parseQuoted q (c :: (escapeStr q t ++ q :: rest)) = _
        rw [parseQuoted_cons, if_neg hc2, if_neg hc1, ih rest]
        rfl

/-- The chosen quote is one of the two quote characters. -/
theorem quoteChar_cases (s : List Char) : quoteChar s = '\'' ∨ quoteChar s = '"' := by
  unfold quoteChar
  by_cases h : s.contains '\'' ∧ ¬ s.contains '"'
  · rw [if_pos h]
    exact Or.inr rfl
  · rw [if_neg h]
    exact Or.inl rfl

/-- The chosen quote is not a backslash. -/
theorem quoteChar_ne_backslash (s : List Char) : quoteChar s ≠ '\\' := by
  rcases quoteChar_cases s with h | h <;> rw [h] <;> decide

/-- One-step unfolding of `parseScalar` on a cons cell. -/
theorem parseScalar_cons (c : Char) (rest : List Char) :
    parseScalar (c :: rest) =
      if c = '\'' ∨ c = '"' then
        (parseQuoted c rest).map (fun p => (.str (String.mk p.1), p.2))
      else (parseInt (c :: rest)).map (fun p => (.int p.1, p.2)) := rfl

/-- The first character of an integer rendering. -/
theorem intStr_head (n : ℤ) :
    ∃ c t, intStr n = c :: t ∧ (c = '-' ∨ c.isDigit = true) := by
  unfold intStr
  by_cases hn : n < 0
  · rw [if_pos hn]
    exact ⟨'-', _, rfl, Or.inl rfl⟩
  · rw [if_neg hn]
    obtain ⟨c, t, hct, hcd⟩ := natStr_head_digit n.natAbs
    exact ⟨c, t, hct, Or.inr hcd⟩

/-- `parseScalar` inverts `pyRepr` when the remainder starts with a
comma or a closing parenthesis (as it does inside a tuple string). -/
theorem parseScalar_pyRepr (x : Scalar) (rest : List Char)
    (h : rest.head? = some ',' ∨ rest.head? = some ')') :
    parseScalar (pyRepr x ++ rest) = some (x, rest) := by
  have hrest : ∀ c, rest.head? = some c → c.isDigit = false := by
    intro c hc
    rcases h with h | h <;> (rw [hc] at h; injection h with h2; subst h2; decide)
  cases x with
  | int n =>
    obtain ⟨c, t, hct, hc⟩ := intStr_head n
    show parseScalar (intStr n ++ rest) = _
    rw [hct, List.cons_append, parseScalar_cons]
    have hnq : ¬(c = '\'' ∨ c = '"') := by
      rcases hc with rfl | hd
      · rintro (h1 | h1) <;> exact absurd h1 (by decide)
      · rintro (h1 | h1)
        · exact (isDigit_excludes c hd).2.1 h1
        · exact (isDigit_excludes c hd).2.2.1 h1
    rw [if_neg hnq, ← List.cons_append, ← hct, parseInt_intStr n rest hrest]
    rfl
  | str s =>
    have hsplit : pyRepr (.str s) ++ rest =
        quoteChar s.data ::
          (escapeStr (quoteChar s.data) s.data ++ (quoteChar s.data :: rest)) := by
      show (quoteChar s.data ::
        (escapeStr (quoteChar s.data) s.data ++ [quoteChar s.data])) ++ rest = _
      simp [List.append_assoc]
    rw [hsplit, parseScalar_cons, if_pos (quoteChar_cases s.data),
      parseQuoted_escape _ (quoteChar_ne_backslash _) _ _]
    cases s
    rfl

/-! ### Tuple strings: roundtrip and injectivity -/

/-- `sepJoin` on two or more pieces. -/
theorem sepJoin_cons_cons (a b : List Char) (l : List (List Char)) :
    sepJoin (a :: b :: l) = a ++ [',', ' '] ++ sepJoin (b :: l) := by
  rw [sepJoin]
  exact fun h => List.noConfusion h

/-- `parseElems` step: an element followed by a separator. -/
theorem parseElems_step (f : ℕ) (l rest2 : List Char) (x : Scalar)
    (h : parseScalar l = some (x, ',' :: ' ' :: rest2)) :
    parseElems (f + 1) l = (match parseElems f rest2 with
      | none => none
      | some xs => some (x :: xs)) := by
  simp only [parseElems, h]

/-- `parseElems` end: a last element followed by `",)"`. -/
theorem parseElems_last (f : ℕ) (l : List Char) (x : Scalar)
    (h : parseScalar l = some (x, [',', ')'])) :
    parseElems (f + 1) l = some [x] := by
  simp only [parseElems, h]

/-- `parseElems` end: a last element followed by `")"`. -/
theorem parseElems_fin (f : ℕ) (l : List Char) (x : Scalar)
    (h : parseScalar l = some (x, [')'])) :
    parseElems (f + 1) l = some [x] := by
  simp only [parseElems, h]

/-- `parseElems` inverts the joined element renderings, for either
closing form. -/
theorem parseElems_round (t : List Scalar) :
    ∀ (fuel : ℕ) (clo : List Char), t.length ≤ fuel →
      (clo = [',', ')'] ∨ clo = [')']) → t ≠ [] →
      parseElems fuel (sepJoin (t.map pyRepr) ++ clo) = some t := by
  induction t with
  | nil =>
    intro fuel clo _ _ h
    exact absurd rfl h
  | cons x t2 ih =>
    intro fuel clo hfuel hclo _
    cases fuel with
    | zero => simp at hfuel
    | succ f =>
      cases t2 with
      | nil =>
        have e1 : sepJoin ((x :: ([] : List Scalar)).map pyRepr) = pyRepr x := by
          rw [List.map_cons, List.map_nil, sepJoin]
        rw [e1]
        have hx : parseScalar (pyRepr x ++ clo) = some (x, clo) := by
          apply parseScalar_pyRepr
          rcases hclo with rfl | rfl
          · exact Or.inl rfl
          · exact Or.inr rfl
        rcases hclo with rfl | rfl
        · exact parseElems_last f _ x hx
        · exact parseElems_fin f _ x hx
      | cons y t3 =>
        rw [List.map_cons, List.map_cons, sepJoin_cons_cons, ← List.map_cons,
          List.append_assoc, List.append_assoc]
        have e2 : ([',', ' '] : List Char) ++
            (sepJoin ((y :: t3).map pyRepr) ++ clo)
            = ',' :: ' ' :: (sepJoin ((y :: t3).map pyRepr) ++ clo) := rfl
        rw [e2]
        rw [parseElems_step f _ _ x
          (parseScalar_pyRepr x _ (Or.inl rfl))]
        rw [ih f clo (by simpa using Nat.le_of_succ_le_succ hfuel) hclo
          (by simp)]

/-- The rendered body is at least as long as the tuple, so the length
fuel suffices. -/
theorem tupleBody_length (t : List Scalar) (clo : List Char)
    (hclo : 1 ≤ clo.length) :
    t.length ≤ (sepJoin (t.map pyRepr) ++ clo).length := by
  induction t with
  | nil => simp
  | cons x t2 ih =>
    cases t2 with
    | nil =>
      rw [List.map_cons, List.map_nil, sepJoin]
      simp only [List.length_append, List.length_cons, List.length_nil]
      omega
    | cons y t3 =>
      rw [List.map_cons, List.map_cons, sepJoin_cons_cons, ← List.map_cons,
        List.append_assoc, List.append_assoc]
      have := ih
      simp only [List.length_append, List.length_cons, List.length_nil] at *
      omega

/-- `parseTuple` inverts the tuple string form. -/
theorem parseTuple_tupleStrL (t : List Scalar) (ht : t ≠ []) :
    parseTuple (tupleStrL t) = some t := by
  unfold tupleStrL parseTuple
  by_cases h1 : t.length = 1
  · rw [if_pos h1]
    exact parseElems_round t _ [',', ')']
      (le_trans (tupleBody_length t [',', ')'] (by simp)) le_rfl)
      (Or.inl rfl) ht
  · rw [if_neg h1]
    exact parseElems_round t _ [')']
      (le_trans (tupleBody_length t [')'] (by simp)) le_rfl)
      (Or.inr rfl) ht

/-- The tuple string form is injective on nonempty tuples. -/
theorem tupleStrL_inj (t1 t2 : List Scalar) (h1 : t1 ≠ []) (h2 : t2 ≠ [])
    (he : tupleStrL t1 = tupleStrL t2) : t1 = t2 := by
  have r1 := parseTuple_tupleStrL t1 h1
  have r2 := parseTuple_tupleStrL t2 h2
  rw [he, r2] at r1
  injection r1 with r
  exact r.symm

/-- C6: the flattening of MultiIndex tuples into string keys (as in
`pd.Index([str(i) for i in data.index])`) is injective within one
index: two distinct (nonempty) tuples of the same index never collapse
to the same string key.  The second conjunct ties `tupleStr` to the
preprocessing step. -/
theorem multiindex_flatten_injective (nm : Option String)
    (entries : List (List Scalar)) (t1 t2 : List Scalar)
    (hm1 : t1 ∈ entries) (hm2 : t2 ∈ entries) (hne : t1 ≠ t2)
    (hn1 : t1 ≠ []) (hn2 : t2 ≠ []) :
    tupleStr t1 ≠ tupleStr t2
    ∧ (FrameIndex.multi nm entries).strEntries =
        entries.map (fun t => .str (tupleStr t)) := by
  refine ⟨?_, rfl⟩
  intro hs
  exact hne (tupleStrL_inj t1 t2 hn1 hn2 (congrArg String.data hs))

/-- Witness for `multiindex_flatten_injective` on a concrete two-level
index. -/
theorem multiindex_flatten_injective_witness :
    tupleStr [Scalar.str "a", Scalar.int 1] ≠
      tupleStr [Scalar.str "b", Scalar.int 2] :=
  (multiindex_flatten_injective none
    [[Scalar.str "a", Scalar.int 1], [Scalar.str "b", Scalar.int 2]]
    [Scalar.str "a", Scalar.int 1] [Scalar.str "b", Scalar.int 2]
    (by decide) (by decide) (by decide) (by decide) (by decide)).1

end AltairPandas
